import Mathlib

/-!
Shallow embedding of the `mighty` Go test-assertion library
(package `mighty`, current revision: the file declaring `Myt`,
`Eq`/`Deq`/`Neq`/`Near`, their curried `Exp…` forms, `NearFunc`,
`getErr` and `getFuncLine`).

Modelling conventions:
* Go `interface{}` values are modelled by the inductive `GoVal`,
  covering the dynamic types exercised by the library and its tests
  (nil, int, string, float64, bool, and the non-comparable `[]int`).
* Go `float64` is modelled by `GoFloat`: NaN, signed infinities, and
  finite values as exact rationals.  Of IEEE-754 rounding only the
  overflow of subtraction to an infinity is modelled (threshold
  `overflowThr`); sub-ULP rounding of in-range results is not, since
  none of the verified properties depend on it.
* A call that panics (Go run-time error, e.g. `==` on two values of
  the same non-comparable dynamic type) is an `Except.error ()`.
* The only effect of an assertion is the ordered list of messages it
  passes to the reporter (`testing.TB.Errorf`); a message is a `Msg`
  recording which format string was used and the values interpolated
  into it.
-/

namespace Mighty

/-- Go `error` values handed to the assertions (only their identity
matters to the logic, so a string stands for the error value). -/
abbrev Err := String

/-- Model of Go `float64`: NaN, the two infinities, and finite values
as exact rationals. -/
inductive GoFloat
  | nan : GoFloat
  | inf (pos : Bool) : GoFloat
  | finite (q : ℚ) : GoFloat
  deriving DecidableEq

/-- Overflow threshold of IEEE-754 binary64: an exact result with
magnitude at least `2^1024 - 2^970` rounds to an infinity. -/
def overflowThr : ℚ := 2 ^ 1024 - 2 ^ 970

/-- Largest finite float64 (`math.MaxFloat64` = `2^1024 - 2^971`). -/
def maxFloat64 : ℚ := 2 ^ 1024 - 2 ^ 971

/-- IEEE-754 equality `a == b` on float64: NaN equals nothing,
infinities of the same sign are equal. -/
def GoFloat.goBeq : GoFloat → GoFloat → Bool
  | .nan, _ => false
  | _, .nan => false
  | .inf p, .inf q => p == q
  | .finite a, .finite b => a == b
  | _, _ => false

/-- IEEE-754 strict order `a < b` on float64: false whenever either
side is NaN. -/
def GoFloat.goLt : GoFloat → GoFloat → Bool
  | .nan, _ => false
  | _, .nan => false
  | .inf p, .inf q => !p && q
  | .inf p, .finite _ => !p
  | .finite _, .inf q => q
  | .finite a, .finite b => decide (a < b)

/-- Rounding of an exact subtraction result: only overflow to an
infinity is modelled. -/
def roundFloat (d : ℚ) : GoFloat :=
  if overflowThr ≤ d then .inf true
  else if d ≤ -overflowThr then .inf false
  else .finite d

/-- IEEE-754 subtraction `a - b` on float64. -/
def GoFloat.goSub : GoFloat → GoFloat → GoFloat
  | .nan, _ => .nan
  | _, .nan => .nan
  | .inf p, .inf q => if p == q then .nan else .inf p
  | .inf p, .finite _ => .inf p
  | .finite _, .inf q => .inf (!q)
  | .finite a, .finite b => roundFloat (a - b)

/-- `math.Abs` on float64. -/
def GoFloat.goAbs : GoFloat → GoFloat
  | .nan => .nan
  | .inf _ => .inf true
  | .finite a => .finite |a|

/-- `NearFunc(a, b, eps)`: quick `a == b` check (also handles the
infinities), otherwise `math.Abs(a-b) < eps`. -/
def NearFunc (a b eps : GoFloat) : Bool :=
  if a.goBeq b then true
  else (GoFloat.goAbs (a.goSub b)).goLt eps

/-- `NearLogic`, whose default (and here: only) value is `NearFunc`. -/
def NearLogic : GoFloat → GoFloat → GoFloat → Bool := NearFunc

/-- Dynamic types (`reflect.Type`) of the modelled values. -/
inductive GoType
  | tInt : GoType
  | tString : GoType
  | tFloat64 : GoType
  | tBool : GoType
  | tSliceInt : GoType
  deriving DecidableEq

/-- Go `interface{}` values handed to the assertions. `vsliceInt` is
the representative non-comparable dynamic type (`[]int`). -/
inductive GoVal
  | vnil : GoVal
  | vint (n : Int) : GoVal
  | vstring (s : String) : GoVal
  | vfloat (x : GoFloat) : GoVal
  | vbool (b : Bool) : GoVal
  | vsliceInt (xs : List Int) : GoVal
  deriving DecidableEq

/-- `reflect.TypeOf`: `none` for the nil interface. -/
def GoVal.typeOf : GoVal → Option GoType
  | .vnil => none
  | .vint _ => some .tInt
  | .vstring _ => some .tString
  | .vfloat _ => some .tFloat64
  | .vbool _ => some .tBool
  | .vsliceInt _ => some .tSliceInt

/-- Go shallow interface equality `x == y`: values of different
dynamic types are unequal; values of the same comparable type compare
by value (floats by IEEE `==`); comparing two values of the same
non-comparable type (two `[]int` slices) is a run-time panic. -/
def goEq : GoVal → GoVal → Except Unit Bool
  | .vnil, .vnil => .ok true
  | .vint m, .vint n => .ok (m == n)
  | .vstring s, .vstring t => .ok (s == t)
  | .vfloat x, .vfloat y => .ok (x.goBeq y)
  | .vbool a, .vbool b => .ok (a == b)
  | .vsliceInt _, .vsliceInt _ => .error ()
  | _, _ => .ok false

/-- `reflect.DeepEqual`: structural, element-wise on slices, never
panics; floats again by IEEE `==`. -/
def goDeepEq : GoVal → GoVal → Bool
  | .vnil, .vnil => true
  | .vint m, .vint n => m == n
  | .vstring s, .vstring t => s == t
  | .vfloat x, .vfloat y => x.goBeq y
  | .vbool a, .vbool b => a == b
  | .vsliceInt xs, .vsliceInt ys => xs == ys
  | _, _ => false

/-- `getErr(errs...)`: the first variadic error if present and
non-nil, else nil. -/
def getErr (errs : List (Option Err)) : Option Err :=
  match errs with
  | [] => none
  | e :: _ => if e.isSome then e else none

/-- One reporter (`Errorf`) message: which format was used and the
values interpolated into it.  The `err` field is `some` exactly when
the format variant carrying the upstream error cause was used. -/
inductive Msg
  | eqFail (deep : Bool) (exp got : GoVal) (err : Option Err) : Msg
  | typeMismatch (texp tgot : Option GoType) : Msg
  | neqFail (v1 v2 : GoVal) (err : Option Err) : Msg
  | nearFail (exp got eps : GoFloat) (err : Option Err) : Msg
  deriving DecidableEq

/-- A primary failure message (anything but the supplementary
type-mismatch diagnostic). -/
def Msg.isPrimary : Msg → Bool
  | .typeMismatch _ _ => false
  | _ => true

/-- The supplementary type-mismatch diagnostic. -/
def Msg.isTypeNote : Msg → Bool
  | .typeMismatch _ _ => true
  | _ => false

/-- The upstream cause a message mentions, if any. -/
def Msg.cause : Msg → Option Err
  | .eqFail _ _ _ e => e
  | .typeMismatch _ _ => none
  | .neqFail _ _ e => e
  | .nearFail _ _ _ e => e

/-- The messages of a call that may have panicked: a panic aborts the
call before any message of it is recorded. -/
def recMsgs : Except Unit (List Msg) → List Msg
  | .ok l => l
  | .error _ => []

/-- `Myt.expEqDeq(exp, deep)`: the closure shared by `ExpEq` and
`ExpDeq`.  Reads the optional error, compares (shallow comparison may
panic), returns silently iff equal with no error; otherwise records
the primary failure and, when the values are unequal and both non-nil
with differing dynamic types, the supplementary type-mismatch
diagnostic. -/
def Myt.expEqDeq (exp : GoVal) (deep : Bool) :
    GoVal → List (Option Err) → Except Unit (List Msg) :=
  fun got errs =>
    let err := getErr errs
    match (if deep then Except.ok (goDeepEq exp got) else goEq exp got) with
    | .error u => .error u
    | .ok eq =>
      if eq = true ∧ err = none then .ok []
      else
        let extra :=
          if eq = false ∧ exp ≠ GoVal.vnil ∧ got ≠ GoVal.vnil ∧
              exp.typeOf ≠ got.typeOf then
            [Msg.typeMismatch exp.typeOf got.typeOf]
          else []
        .ok (Msg.eqFail deep exp got err :: extra)

/-- Curried `Myt.ExpEq(exp)`. -/
def Myt.ExpEq (exp : GoVal) : GoVal → List (Option Err) → Except Unit (List Msg) :=
  Myt.expEqDeq exp false

/-- Curried `Myt.ExpDeq(exp)`. -/
def Myt.ExpDeq (exp : GoVal) : GoVal → List (Option Err) → Except Unit (List Msg) :=
  Myt.expEqDeq exp true

/-- Direct `Myt.Eq(exp, got, errs...)`, delegating to `ExpEq`. -/
def Myt.Eq (exp got : GoVal) (errs : List (Option Err)) : Except Unit (List Msg) :=
  Myt.ExpEq exp got errs

/-- Direct `Myt.Deq(exp, got, errs...)`, delegating to `ExpDeq`. -/
def Myt.Deq (exp got : GoVal) (errs : List (Option Err)) : Except Unit (List Msg) :=
  Myt.ExpDeq exp got errs

/-- Curried `Myt.ExpNeq(v1)`: silent iff the values differ and no
error was supplied; otherwise exactly one message. -/
def Myt.ExpNeq (v1 : GoVal) : GoVal → List (Option Err) → Except Unit (List Msg) :=
  fun v2 errs =>
    let err := getErr errs
    match goEq v1 v2 with
    | .error u => .error u
    | .ok eq =>
      if eq = false ∧ err = none then .ok []
      else .ok [Msg.neqFail v1 v2 err]

/-- Direct `Myt.Neq(v1, v2, errs...)`, delegating to `ExpNeq`. -/
def Myt.Neq (v1 v2 : GoVal) (errs : List (Option Err)) : Except Unit (List Msg) :=
  Myt.ExpNeq v1 v2 errs

/-- Curried `Myt.ExpNear(exp, eps)`: silent iff no error was supplied
and `NearLogic(exp, got, eps)` holds; otherwise exactly one message.
Never panics, hence no `Except`. -/
def Myt.ExpNear (exp eps : GoFloat) : GoFloat → List (Option Err) → List Msg :=
  fun got errs =>
    let err := getErr errs
    if err = none ∧ NearLogic exp got eps = true then []
    else [Msg.nearFail exp got eps err]

/-- Direct `Myt.Near(exp, got, eps, errs...)`, delegating to
`ExpNear`. -/
def Myt.Near (exp got eps : GoFloat) (errs : List (Option Err)) : List Msg :=
  Myt.ExpNear exp eps got errs

/-- One frame as produced by `runtime.CallersFrames`. -/
structure Frame where
  function : String
  file : String
  line : Int
  deriving DecidableEq

/-- `packageName`, computed once from `reflect.TypeOf(Myt{}).PkgPath()`. -/
def packageName : String := "github.com/icza/mighty"

/-- `strings.HasPrefix` (over the characters of the strings). -/
def hasPrefixStr (p s : String) : Bool :=
  p.data.isPrefixOf s.data

/-- `filepath.Base`: strip trailing slashes, then keep the last
path component; `""` gives `"."` and all-slash paths give `"/"`. -/
def baseName (path : String) : String :=
  if path = "" then "."
  else
    let p := path.data.reverse.dropWhile (fun c => c = '/')
    if p = [] then "/"
    else String.mk ((p.takeWhile (fun c => c ≠ '/')).reverse)

/-- The frame loop of `getFuncLine`: `frames.Next()` yields a frame
together with a `more` flag that the `for` condition tests before the
body runs, so a frame is examined only if another frame follows it;
the first examined frame whose function name does not carry the
package prefix is selected. -/
def frameLoop : List Frame → Option Frame
  | [] => none
  | f :: rest =>
    if rest.isEmpty then none
    else if hasPrefixStr packageName f.function then frameLoop rest
    else some f

/-- `getFuncLine()` of the current revision: captures at most 20
program counters, walks them with `frameLoop`, and falls back to the
sentinel triple when no function name was selected. -/
def getFuncLine (stack : List Frame) : String × String × Int :=
  let captured := stack.take 20
  let r :=
    match frameLoop captured with
    | some f => (f.function, baseName f.file, f.line)
    | none => ("", "", 0)
  if r.1 = "" then ("<unknown_func>", "<unknown_file>", -1)
  else r

end Mighty

namespace Mighty

/-! ### Helper lemmas -/

/-- Values of differing dynamic types compare shallowly unequal
without a panic. -/
theorem goEq_of_typeOf_ne (a b : GoVal) (h : a.typeOf ≠ b.typeOf) :
    goEq a b = .ok false := by
  cases a <;> cases b <;> simp_all [GoVal.typeOf, goEq]

/-- Values of differing dynamic types are deep-unequal. -/
theorem goDeepEq_of_typeOf_ne (a b : GoVal) (h : a.typeOf ≠ b.typeOf) :
    goDeepEq a b = false := by
  cases a <;> cases b <;> simp_all [GoVal.typeOf, goDeepEq]

/-- Shallow comparison panics exactly on two slice values; otherwise
it yields a boolean. -/
theorem goEq_ok_of_not_both_slices (a b : GoVal)
    (h : ∀ xs ys : List Int, ¬ (a = GoVal.vsliceInt xs ∧ b = GoVal.vsliceInt ys)) :
    ∃ v, goEq a b = .ok v := by
  cases a <;> cases b <;> first
    | exact ⟨_, rfl⟩
    | · exfalso; exact h _ _ ⟨rfl, rfl⟩

end Mighty

namespace Mighty

/-- C2 counterexample: the claim says eps = +Inf makes ANY two
non-NaN finite values near, but `MaxFloat64 - (-MaxFloat64)`
overflows to +Inf and `+Inf < +Inf` is false, so the two extreme
finite values are not near even with eps = +Inf. -/
theorem C2_counterexample :
    NearFunc (GoFloat.finite maxFloat64) (GoFloat.finite (-maxFloat64))
      (GoFloat.inf true) = false := by
  have h1 : ¬ (maxFloat64 = -maxFloat64) := by norm_num [maxFloat64]
  have h2 : overflowThr ≤ maxFloat64 + maxFloat64 := by
    norm_num [maxFloat64, overflowThr]
  simp [NearFunc, GoFloat.goBeq, GoFloat.goSub, roundFloat, GoFloat.goAbs,
    GoFloat.goLt, h1, h2, sub_neg_eq_add]

/-- Claim C2 (amended): the default nearness predicate short-circuits
to true on IEEE-equal arguments (so eps, even NaN, is irrelevant
there); otherwise it is exactly `|a-b| < eps`; NaN is near nothing;
the two infinities are not near each other; and eps = +Inf makes two
finite values near exactly when their difference does not overflow
the float64 range (|q - r| below the overflow threshold). -/
theorem C2_nearFunc_spec (a b eps : GoFloat) (q r : ℚ)
    (hab : GoFloat.goBeq a b = false) :
    (∀ c d e2 : GoFloat, GoFloat.goBeq c d = true → NearFunc c d e2 = true) ∧
    NearFunc a b eps = (GoFloat.goAbs (GoFloat.goSub a b)).goLt eps ∧
    NearFunc GoFloat.nan b eps = false ∧
    NearFunc a GoFloat.nan eps = false ∧
    NearFunc (GoFloat.inf true) (GoFloat.inf false) eps = false ∧
    NearFunc (GoFloat.inf false) (GoFloat.inf true) eps = false ∧
    NearFunc (GoFloat.finite q) (GoFloat.finite r) (GoFloat.inf true) =
      decide (|q - r| < overflowThr) := by
  have hthr : 0 < overflowThr := by norm_num [overflowThr]
  refine ⟨fun c d e2 hcd => by simp [NearFunc, hcd], by simp [NearFunc, hab],
    ?_, ?_, ?_, ?_, ?_⟩
  · simp [NearFunc, GoFloat.goBeq, GoFloat.goSub, GoFloat.goAbs, GoFloat.goLt]
  · cases a <;>
      simp [NearFunc, GoFloat.goBeq, GoFloat.goSub, GoFloat.goAbs, GoFloat.goLt]
  · cases eps <;>
      simp [NearFunc, GoFloat.goBeq, GoFloat.goSub, GoFloat.goAbs, GoFloat.goLt]
  · cases eps <;>
      simp [NearFunc, GoFloat.goBeq, GoFloat.goSub, GoFloat.goAbs, GoFloat.goLt]
  · by_cases hqr : q = r
    · subst hqr
      simp [NearFunc, GoFloat.goBeq, abs_nonneg, hthr]
    · have hne : (q == r) = false := by simp [hqr]
      by_cases hov : overflowThr ≤ q - r
      · have habs : ¬ (|q - r| < overflowThr) := by
          rw [not_lt]
          rcases abs_cases (q - r) with h | h <;> rw [h.1] <;> linarith
        simp [NearFunc, GoFloat.goBeq, GoFloat.goSub, roundFloat, hne, hov,
          GoFloat.goAbs, GoFloat.goLt, habs]
      · by_cases hov2 : q - r ≤ -overflowThr
        · have habs : ¬ (|q - r| < overflowThr) := by
            rw [not_lt]
            rcases abs_cases (q - r) with h | h <;> rw [h.1] <;> linarith
          simp [NearFunc, GoFloat.goBeq, GoFloat.goSub, roundFloat, hne, hov,
            hov2, GoFloat.goAbs, GoFloat.goLt, habs]
        · have habs : |q - r| < overflowThr := by
            rw [abs_lt]
            exact ⟨by linarith [not_le.mp hov2], by linarith [not_le.mp hov]⟩
          simp [NearFunc, GoFloat.goBeq, GoFloat.goSub, roundFloat, hne, hov,
            hov2, GoFloat.goAbs, GoFloat.goLt, habs]

/-- Witness for `C2_nearFunc_spec` at concrete inputs. -/
theorem C2_nearFunc_spec_witness :
    GoFloat.goBeq (GoFloat.finite 1) (GoFloat.finite 2) = false ∧
    GoFloat.goBeq (GoFloat.finite 5) (GoFloat.finite 5) = true ∧
    NearFunc (GoFloat.finite 5) (GoFloat.finite 5) GoFloat.nan = true ∧
    NearFunc (GoFloat.finite 1) (GoFloat.finite 2) (GoFloat.finite 3) =
      (GoFloat.goAbs (GoFloat.goSub (GoFloat.finite 1) (GoFloat.finite 2))).goLt
        (GoFloat.finite 3) :=
  ⟨by decide, by decide,
    (C2_nearFunc_spec (GoFloat.finite 1) (GoFloat.finite 2) (GoFloat.finite 3)
      0 0 (by decide)).1 (GoFloat.finite 5) (GoFloat.finite 5) GoFloat.nan
      (by decide),
    (C2_nearFunc_spec (GoFloat.finite 1) (GoFloat.finite 2) (GoFloat.finite 3)
      0 0 (by decide)).2.1⟩

/-- Claim C5: a non-nil upstream cause alone forces exactly one
failure from `Eq`/`ExpEq` even on equal values and from `Neq` even on
unequal values, and the recorded message includes the cause. -/
theorem C5_cause_forces_failure
    (exp got v1 v2 : GoVal) (e : Err) (rest : List (Option Err))
    (hE : goEq exp got = .ok true) (hN : goEq v1 v2 = .ok false) :
    Myt.Eq exp got (some e :: rest) = .ok [Msg.eqFail false exp got (some e)] ∧
    Myt.ExpEq exp got (some e :: rest) = .ok [Msg.eqFail false exp got (some e)] ∧
    Myt.Neq v1 v2 (some e :: rest) = .ok [Msg.neqFail v1 v2 (some e)] ∧
    (Msg.eqFail false exp got (some e)).cause = some e ∧
    (Msg.neqFail v1 v2 (some e)).cause = some e := by
  refine ⟨?_, ?_, ?_, rfl, rfl⟩ <;>
    simp [Myt.Eq, Myt.Neq, Myt.ExpEq, Myt.expEqDeq, Myt.ExpNeq, getErr, hE, hN]

/-- Witness for `C5_cause_forces_failure`: the spec scenario
`ExpEq(4)(4, cause)` plus `Neq(1, 2, cause)`. -/
theorem C5_cause_forces_failure_witness :
    goEq (GoVal.vint 4) (GoVal.vint 4) = .ok true ∧
    goEq (GoVal.vint 1) (GoVal.vint 2) = .ok false ∧
    Myt.ExpEq (GoVal.vint 4) (GoVal.vint 4) [some "cause"] =
      .ok [Msg.eqFail false (GoVal.vint 4) (GoVal.vint 4) (some "cause")] ∧
    Myt.Neq (GoVal.vint 1) (GoVal.vint 2) [some "cause"] =
      .ok [Msg.neqFail (GoVal.vint 1) (GoVal.vint 2) (some "cause")] :=
  ⟨rfl, rfl,
    (C5_cause_forces_failure (GoVal.vint 4) (GoVal.vint 4) (GoVal.vint 1)
      (GoVal.vint 2) "cause" [] rfl rfl).2.1,
    (C5_cause_forces_failure (GoVal.vint 4) (GoVal.vint 4) (GoVal.vint 1)
      (GoVal.vint 2) "cause" [] rfl rfl).2.2.1⟩

/-- Claim C6: the direct forms are observationally equivalent to
their curried forms applied to the same arguments. -/
theorem C6_direct_equals_curried
    (exp got v1 v2 : GoVal) (a b eps : GoFloat) (errs : List (Option Err)) :
    Myt.Eq exp got errs = Myt.ExpEq exp got errs ∧
    Myt.Neq v1 v2 errs = Myt.ExpNeq v1 v2 errs ∧
    Myt.Deq exp got errs = Myt.ExpDeq exp got errs ∧
    Myt.Near a b eps errs = Myt.ExpNear a eps b errs :=
  ⟨rfl, rfl, rfl, rfl⟩

/-- Claim C8: only the first variadic error is consulted (`getErr`
returns it iff it is non-nil, nil in every other case), and the tail
of the list never influences any assertion. -/
theorem C8_first_error_only
    (e : Option Err) (rest rest2 errs errs2 : List (Option Err))
    (exp got v1 v2 : GoVal) (a b eps : GoFloat)
    (h : getErr errs = getErr errs2) :
    getErr [] = none ∧
    (∀ x : Err, getErr (some x :: rest) = some x) ∧
    getErr (none :: rest) = none ∧
    getErr (e :: rest) = getErr (e :: rest2) ∧
    Myt.Eq exp got errs = Myt.Eq exp got errs2 ∧
    Myt.Deq exp got errs = Myt.Deq exp got errs2 ∧
    Myt.Neq v1 v2 errs = Myt.Neq v1 v2 errs2 ∧
    Myt.Near a b eps errs = Myt.Near a b eps errs2 := by
  refine ⟨rfl, fun x => rfl, rfl, rfl, ?_, ?_, ?_, ?_⟩ <;>
    simp only [Myt.Eq, Myt.Deq, Myt.ExpEq, Myt.ExpDeq, Myt.expEqDeq,
      Myt.Neq, Myt.ExpNeq, Myt.Near, Myt.ExpNear, h]

/-- Witness for `C8_first_error_only`. -/
theorem C8_first_error_only_witness :
    getErr [some "a", none] = getErr [some "a"] ∧
    getErr [] = none ∧
    Myt.Eq (GoVal.vint 1) (GoVal.vint 2) [some "a", none] =
      Myt.Eq (GoVal.vint 1) (GoVal.vint 2) [some "a"] :=
  ⟨rfl, rfl,
    (C8_first_error_only none [] [] [some "a", none] [some "a"]
      (GoVal.vint 1) (GoVal.vint 2) (GoVal.vint 1) (GoVal.vint 2)
      (GoFloat.finite 0) (GoFloat.finite 0) (GoFloat.finite 0) rfl).2.2.2.2.1⟩

/-- Claim C9: `Neq`/`ExpNeq` record at most one message per call and
never the supplementary type-mismatch diagnostic. -/
theorem C9_neq_at_most_one_message (v1 v2 : GoVal) (errs : List (Option Err)) :
    Myt.Neq v1 v2 errs = Myt.ExpNeq v1 v2 errs ∧
    (recMsgs (Myt.Neq v1 v2 errs)).length ≤ 1 ∧
    ∀ m ∈ recMsgs (Myt.Neq v1 v2 errs), m.isTypeNote = false := by
  refine ⟨rfl, ?_, ?_⟩ <;>
  · simp only [Myt.Neq, Myt.ExpNeq]
    cases hg : goEq v1 v2 with
    | error u => simp [hg, recMsgs]
    | ok eq =>
      simp only [hg]
      split <;> simp [recMsgs, Msg.isTypeNote]

end Mighty

namespace Mighty

/-- Claim C1: an assertion call records nothing iff its comparison
predicate holds and the optional cause is absent or nil; otherwise
exactly one failure is recorded per call.  Failures are the primary
messages; the supplementary type-mismatch note of the equality
assertions is a secondary diagnostic, counted apart (spec section 7).
For `Eq`/`Neq` the shallow comparison is assumed to yield a value
(the data model scopes comparison pairs to comparable shapes); the
non-comparable case is the subject of claim C3.  The direct forms
are the curried forms applied (claim C6), so the statement covers
`ExpEq`, `ExpDeq`, `ExpNeq` and `ExpNear` as well. -/
theorem C1_silent_iff_pred_and_no_cause
    (exp got v1 v2 : GoVal) (a b eps : GoFloat) (ge gn : Bool)
    (errs : List (Option Err))
    (hE : goEq exp got = .ok ge) (hN : goEq v1 v2 = .ok gn) :
    (Myt.Eq exp got errs = .ok [] ↔ (ge = true ∧ getErr errs = none)) ∧
    (¬ (ge = true ∧ getErr errs = none) →
      ∃ l, Myt.Eq exp got errs = .ok l ∧
        (l.filter Msg.isPrimary).length = 1) ∧
    (Myt.Deq exp got errs = .ok [] ↔
      (goDeepEq exp got = true ∧ getErr errs = none)) ∧
    (¬ (goDeepEq exp got = true ∧ getErr errs = none) →
      ∃ l, Myt.Deq exp got errs = .ok l ∧
        (l.filter Msg.isPrimary).length = 1) ∧
    (Myt.Neq v1 v2 errs = .ok [] ↔ (gn = false ∧ getErr errs = none)) ∧
    (¬ (gn = false ∧ getErr errs = none) →
      Myt.Neq v1 v2 errs = .ok [Msg.neqFail v1 v2 (getErr errs)]) ∧
    (Myt.Near a b eps errs = [] ↔
      (NearLogic a b eps = true ∧ getErr errs = none)) ∧
    (¬ (NearLogic a b eps = true ∧ getErr errs = none) →
      Myt.Near a b eps errs = [Msg.nearFail a b eps (getErr errs)]) := by
  refine ⟨?_, ?_, ?_, ?_, ?_, ?_, ?_, ?_⟩
  · by_cases hc : (ge = true ∧ getErr errs = none) <;>
      simp [Myt.Eq, Myt.ExpEq, Myt.expEqDeq, hE, hc]
  · intro hc
    by_cases hx : (ge = false ∧ exp ≠ GoVal.vnil ∧ got ≠ GoVal.vnil ∧
        exp.typeOf ≠ got.typeOf)
    · refine ⟨[Msg.eqFail false exp got (getErr errs),
        Msg.typeMismatch exp.typeOf got.typeOf], ?_, ?_⟩
      · simp [Myt.Eq, Myt.ExpEq, Myt.expEqDeq, hE, hc, hx]
      · simp [Msg.isPrimary]
    · refine ⟨[Msg.eqFail false exp got (getErr errs)], ?_, ?_⟩
      · simp [Myt.Eq, Myt.ExpEq, Myt.expEqDeq, hE, hc, hx]
      · simp [Msg.isPrimary]
  · by_cases hc : (goDeepEq exp got = true ∧ getErr errs = none) <;>
      simp [Myt.Deq, Myt.ExpDeq, Myt.expEqDeq, hc]
  · intro hc
    by_cases hx : (goDeepEq exp got = false ∧ exp ≠ GoVal.vnil ∧
        got ≠ GoVal.vnil ∧ exp.typeOf ≠ got.typeOf)
    · refine ⟨[Msg.eqFail true exp got (getErr errs),
        Msg.typeMismatch exp.typeOf got.typeOf], ?_, ?_⟩
      · simp [Myt.Deq, Myt.ExpDeq, Myt.expEqDeq, hc, hx]
      · simp [Msg.isPrimary]
    · refine ⟨[Msg.eqFail true exp got (getErr errs)], ?_, ?_⟩
      · simp [Myt.Deq, Myt.ExpDeq, Myt.expEqDeq, hc, hx]
      · simp [Msg.isPrimary]
  · by_cases hc : (gn = false ∧ getErr errs = none) <;>
      simp [Myt.Neq, Myt.ExpNeq, hN, hc]
  · intro hc
    simp [Myt.Neq, Myt.ExpNeq, hN, hc]
  · by_cases h1 : NearLogic a b eps = true <;>
      by_cases h2 : getErr errs = none <;>
        simp [Myt.Near, Myt.ExpNear, h1, h2]
  · intro hc
    by_cases h1 : NearLogic a b eps = true <;>
      by_cases h2 : getErr errs = none <;>
        simp_all [Myt.Near, Myt.ExpNear]

/-- Witness for `C1_silent_iff_pred_and_no_cause`: equal ints with no
cause are silent for `Eq`; unequal ints with a cause make `Neq` record
exactly its single failure message. -/
theorem C1_silent_iff_witness :
    goEq (GoVal.vint 1) (GoVal.vint 1) = .ok true ∧
    goEq (GoVal.vint 2) (GoVal.vint 3) = .ok false ∧
    (Myt.Eq (GoVal.vint 1) (GoVal.vint 1) [] = .ok [] ↔
      (true = true ∧ getErr [] = none)) ∧
    Myt.Neq (GoVal.vint 2) (GoVal.vint 3) [some "e"] =
      .ok [Msg.neqFail (GoVal.vint 2) (GoVal.vint 3) (getErr [some "e"])] :=
  ⟨rfl, rfl,
    (C1_silent_iff_pred_and_no_cause (GoVal.vint 1) (GoVal.vint 1)
      (GoVal.vint 2) (GoVal.vint 3) (GoFloat.finite 0) (GoFloat.finite 0)
      (GoFloat.finite 1) true false [] rfl rfl).1,
    (C1_silent_iff_pred_and_no_cause (GoVal.vint 1) (GoVal.vint 1)
      (GoVal.vint 2) (GoVal.vint 3) (GoFloat.finite 0) (GoFloat.finite 0)
      (GoFloat.finite 1) true false [some "e"] rfl rfl).2.2.2.2.2.1
      (by simp [getErr])⟩

end Mighty

namespace Mighty

/-- C3 counterexample: `Eq` on two values of the same non-comparable
dynamic type (two `[]int` slices) panics inside the assertion — Go's
interface comparison raises a run-time error — instead of merely
notifying the reporter. -/
theorem C3_counterexample :
    Myt.Eq (GoVal.vsliceInt [1]) (GoVal.vsliceInt [1]) [] = .error () := rfl

/-- Claim C3 (amended): `Deq` and `Near` never panic on any input,
and `Eq`/`Neq` never panic and only notify the reporter provided the
two values are not both of the same non-comparable dynamic type; on
two slice values Go's `==` raises a run-time comparison error inside
both `Eq` and `Neq`.  The no-panic conjuncts for `Deq` and `Near` are
universal (in particular they hold at the slice pairs excluded from
the `Eq`/`Neq` conjuncts), and the panic behaviour of `Eq` and `Neq`
on slice pairs is pinned for every pair and error list. -/
theorem C3_no_panic_amended
    (exp got v1 v2 : GoVal) (errs : List (Option Err))
    (hE : ∀ xs ys : List Int,
      ¬ (exp = GoVal.vsliceInt xs ∧ got = GoVal.vsliceInt ys))
    (hN : ∀ xs ys : List Int,
      ¬ (v1 = GoVal.vsliceInt xs ∧ v2 = GoVal.vsliceInt ys)) :
    (∃ l, Myt.Eq exp got errs = .ok l) ∧
    (∃ l, Myt.Neq v1 v2 errs = .ok l) ∧
    (∀ c d : GoVal, ∀ es : List (Option Err),
      ∃ l, Myt.Deq c d es = .ok l) ∧
    (∀ a b eps : GoFloat, ∀ es : List (Option Err),
      ∃ l, Myt.Near a b eps es = l) ∧
    (∀ xs ys : List Int, ∀ es : List (Option Err),
      Myt.Eq (GoVal.vsliceInt xs) (GoVal.vsliceInt ys) es = .error ()) ∧
    (∀ xs ys : List Int, ∀ es : List (Option Err),
      Myt.Neq (GoVal.vsliceInt xs) (GoVal.vsliceInt ys) es = .error ()) := by
  obtain ⟨ve, he⟩ := goEq_ok_of_not_both_slices exp got hE
  obtain ⟨vn, hn⟩ := goEq_ok_of_not_both_slices v1 v2 hN
  refine ⟨?_, ?_, ?_, fun a b eps es => ⟨_, rfl⟩, ?_, ?_⟩
  · simp only [Myt.Eq, Myt.ExpEq, Myt.expEqDeq, Bool.false_eq_true, if_false, he]
    split <;> exact ⟨_, rfl⟩
  · simp only [Myt.Neq, Myt.ExpNeq, hn]
    split <;> exact ⟨_, rfl⟩
  · intro c d es
    simp only [Myt.Deq, Myt.ExpDeq, Myt.expEqDeq, if_true]
    split <;> exact ⟨_, rfl⟩
  · intro xs ys es
    simp [Myt.Eq, Myt.ExpEq, Myt.expEqDeq, goEq]
  · intro xs ys es
    simp [Myt.Neq, Myt.ExpNeq, goEq]

/-- Witness for `C3_no_panic_amended`, including the `Deq` no-panic
conjunct at a slice pair (where `Eq` panics) and both panic
conjuncts. -/
theorem C3_no_panic_amended_witness :
    (∃ l, Myt.Eq (GoVal.vint 1) (GoVal.vstring "x") [] = .ok l) ∧
    (∃ l, Myt.Neq (GoVal.vint 1) (GoVal.vint 1) [] = .ok l) ∧
    (∃ l, Myt.Deq (GoVal.vsliceInt [1]) (GoVal.vsliceInt [1]) [] = .ok l) ∧
    Myt.Eq (GoVal.vsliceInt [1]) (GoVal.vsliceInt [2]) [] = .error () ∧
    Myt.Neq (GoVal.vsliceInt [1]) (GoVal.vsliceInt [2]) [] = .error () :=
  ⟨(C3_no_panic_amended (GoVal.vint 1) (GoVal.vstring "x") (GoVal.vint 1)
      (GoVal.vint 1) [] (by simp) (by simp)).1,
    (C3_no_panic_amended (GoVal.vint 1) (GoVal.vstring "x") (GoVal.vint 1)
      (GoVal.vint 1) [] (by simp) (by simp)).2.1,
    (C3_no_panic_amended (GoVal.vint 1) (GoVal.vstring "x") (GoVal.vint 1)
      (GoVal.vint 1) [] (by simp) (by simp)).2.2.1
      (GoVal.vsliceInt [1]) (GoVal.vsliceInt [1]) [],
    (C3_no_panic_amended (GoVal.vint 1) (GoVal.vstring "x") (GoVal.vint 1)
      (GoVal.vint 1) [] (by simp) (by simp)).2.2.2.2.1 [1] [2] [],
    (C3_no_panic_amended (GoVal.vint 1) (GoVal.vstring "x") (GoVal.vint 1)
      (GoVal.vint 1) [] (by simp) (by simp)).2.2.2.2.2 [1] [2] []⟩

/-- When either compared value is the nil interface, `expEqDeq` never
emits the supplementary type-mismatch diagnostic. -/
theorem expEqDeq_no_type_note_of_nil (a c : GoVal) (dp : Bool)
    (es : List (Option Err)) (hnil : a = GoVal.vnil ∨ c = GoVal.vnil) :
    ∀ m ∈ recMsgs (Myt.expEqDeq a dp c es), m.isTypeNote = false := by
  intro m hm
  have hcnd : ∀ ev : Bool,
      ¬ (ev = false ∧ a ≠ GoVal.vnil ∧ c ≠ GoVal.vnil ∧
        GoVal.typeOf a ≠ GoVal.typeOf c) := by
    intro ev
    rcases hnil with h | h <;> subst h <;> simp
  simp only [Myt.expEqDeq] at hm
  rcases hsc : (if dp then Except.ok (goDeepEq a c) else goEq a c) with u | eqv
  · simp only [hsc, recMsgs] at hm
    simp at hm
  · simp only [hsc, recMsgs] at hm
    by_cases hsil : (eqv = true ∧ getErr es = none)
    · simp only [if_pos hsil, recMsgs] at hm
      simp at hm
    · simp only [if_neg hsil, if_neg (hcnd eqv), recMsgs] at hm
      simp at hm
      subst hm
      rfl

/-- Claim C4: when an equality assertion fails on unequal, non-nil
values of differing dynamic types, the supplementary type-mismatch
diagnostic is recorded after the primary failure (two reporter calls
in total); in particular `Eq(1, "3")` records exactly two messages;
and with a nil value on either side no supplementary message is ever
recorded. -/
theorem C4_supplementary_type_note
    (exp got : GoVal) (deep : Bool) (errs : List (Option Err))
    (h1 : exp ≠ GoVal.vnil) (h2 : got ≠ GoVal.vnil)
    (h3 : exp.typeOf ≠ got.typeOf) :
    Myt.expEqDeq exp deep got errs =
      .ok [Msg.eqFail deep exp got (getErr errs),
           Msg.typeMismatch exp.typeOf got.typeOf] ∧
    Myt.Eq (GoVal.vint 1) (GoVal.vstring "3") [] =
      .ok [Msg.eqFail false (GoVal.vint 1) (GoVal.vstring "3") none,
           Msg.typeMismatch (some GoType.tInt) (some GoType.tString)] ∧
    (∀ a c : GoVal, ∀ dp : Bool, ∀ es : List (Option Err),
      (a = GoVal.vnil ∨ c = GoVal.vnil) →
      ∀ m ∈ recMsgs (Myt.expEqDeq a dp c es), m.isTypeNote = false) := by
  have heq : goEq exp got = .ok false := goEq_of_typeOf_ne exp got h3
  have hdeq : goDeepEq exp got = false := goDeepEq_of_typeOf_ne exp got h3
  refine ⟨?_, rfl, fun a c dp es hnil => expEqDeq_no_type_note_of_nil a c dp es hnil⟩
  cases deep <;> simp [Myt.expEqDeq, heq, hdeq, h1, h2, h3]

/-- Witness for `C4_supplementary_type_note`: the spec scenario
`Eq(1, "3")`. -/
theorem C4_supplementary_type_note_witness :
    GoVal.vint 1 ≠ GoVal.vnil ∧ GoVal.vstring "3" ≠ GoVal.vnil ∧
    (GoVal.vint 1).typeOf ≠ (GoVal.vstring "3").typeOf ∧
    Myt.expEqDeq (GoVal.vint 1) false (GoVal.vstring "3") [] =
      .ok [Msg.eqFail false (GoVal.vint 1) (GoVal.vstring "3") (getErr []),
           Msg.typeMismatch (GoVal.vint 1).typeOf (GoVal.vstring "3").typeOf] :=
  ⟨by simp, by simp, by simp [GoVal.typeOf],
    (C4_supplementary_type_note (GoVal.vint 1) (GoVal.vstring "3") false []
      (by simp) (by simp) (by simp [GoVal.typeOf])).1⟩

end Mighty

namespace Mighty

/-- The frame loop never selects a frame when every frame but the
last carries the package prefix: the last frame is returned together
with `more = false`, so the loop body never examines it. -/
theorem frameLoop_none_of_all_lib (l : List Frame)
    (h : ∀ g ∈ l.dropLast, hasPrefixStr packageName g.function = true) :
    frameLoop l = none := by
  induction l with
  | nil => rfl
  | cons f rest ih =>
    cases rest with
    | nil => rfl
    | cons g t =>
      have hf : hasPrefixStr packageName f.function = true := by
        apply h
        simp [List.dropLast]
      simp only [frameLoop, List.isEmpty, hf, if_true, if_false]
      exact ih (fun x hx => h x (by simp [List.dropLast, hx]))

/-- Leading library frames are skipped by the frame loop. -/
theorem frameLoop_append_lib (pre l : List Frame)
    (hpre : ∀ g ∈ pre, hasPrefixStr packageName g.function = true)
    (hl : l ≠ []) :
    frameLoop (pre ++ l) = frameLoop l := by
  induction pre with
  | nil => rfl
  | cons f rest ih =>
    have hne : (rest ++ l).isEmpty = false := by
      cases hrl : rest ++ l with
      | nil => exact absurd (List.append_eq_nil.mp hrl).2 hl
      | cons x xs => rfl
    have hf : hasPrefixStr packageName f.function = true := hpre f (by simp)
    have ihh := ih (fun g hg => hpre g (by simp [hg]))
    simp [frameLoop, hne, hf, ihh]

/-- The frame loop selects a non-library frame followed by at least
one more frame. -/
theorem frameLoop_select (f : Frame) (l : List Frame)
    (hf : hasPrefixStr packageName f.function = false) (hl : l ≠ []) :
    frameLoop (f :: l) = some f := by
  have hne : l.isEmpty = false := by
    cases l with
    | nil => exact absurd rfl hl
    | cons x xs => rfl
  simp [frameLoop, hne, hf]

/-- Claim C7: `getFuncLine` returns the function name, base file name
and line of the first captured frame outside the library package —
whatever the depth of the caller's own recursion below it — and the
sentinel triple `("<unknown_func>", "<unknown_file>", -1)` when every
captured frame belongs to the library.  The hypotheses keep the
qualifying frame inside the 20-frame capture window and ahead of the
final captured frame (see claim C10 for the window boundary), with a
non-empty function name as `runtime` reports for resolvable frames. -/
theorem C7_caller_attribution
    (pre rest : List Frame) (f : Frame)
    (hpre : ∀ g ∈ pre, hasPrefixStr packageName g.function = true)
    (hf : hasPrefixStr packageName f.function = false)
    (hname : f.function ≠ "")
    (hlen : pre.length < 19)
    (hrest : rest ≠ []) :
    getFuncLine (pre ++ f :: rest) = (f.function, baseName f.file, f.line) ∧
    (∀ s : List Frame,
      (∀ g ∈ s, hasPrefixStr packageName g.function = true) →
      getFuncLine s = ("<unknown_func>", "<unknown_file>", -1)) := by
  constructor
  · have htake : (pre ++ f :: rest).take 20 =
        pre ++ f :: rest.take (19 - pre.length) := by
      rw [List.take_append_eq_append_take,
        List.take_of_length_le (le_of_lt (lt_trans hlen (by norm_num)))]
      congr 1
      have : 20 - pre.length = (19 - pre.length) + 1 := by omega
      rw [this, List.take_succ_cons]
    have hrtake : rest.take (19 - pre.length) ≠ [] := by
      cases rest with
      | nil => exact absurd rfl hrest
      | cons r rs =>
        have : 19 - pre.length = (18 - pre.length) + 1 := by omega
        rw [this, List.take_succ_cons]
        simp
    have hloop : frameLoop ((pre ++ f :: rest).take 20) = some f := by
      rw [htake, frameLoop_append_lib pre _ hpre (by simp),
        frameLoop_select f _ hf hrtake]
    simp [getFuncLine, hloop, hname]
  · intro s hs
    have hloop : frameLoop (s.take 20) = none :=
      frameLoop_none_of_all_lib _
        (fun g hg => hs g (List.take_subset 20 s (List.dropLast_subset _ hg)))
    simp [getFuncLine, hloop]

/-- Witness for `C7_caller_attribution`: two library frames above the
test frame, a runner frame below it. -/
theorem C7_caller_attribution_witness :
    (∀ g ∈ [Frame.mk "github.com/icza/mighty.getFuncLine" "myt.go" 199,
            Frame.mk "github.com/icza/mighty.Myt.expEqDeq.func1" "myt.go" 91],
      hasPrefixStr packageName g.function = true) ∧
    hasPrefixStr packageName "example.TestFoo" = false ∧
    getFuncLine
      [Frame.mk "github.com/icza/mighty.getFuncLine" "myt.go" 199,
       Frame.mk "github.com/icza/mighty.Myt.expEqDeq.func1" "myt.go" 91,
       Frame.mk "example.TestFoo" "/home/u/example/foo_test.go" 42,
       Frame.mk "testing.tRunner" "testing.go" 1439] =
      ("example.TestFoo", baseName "/home/u/example/foo_test.go", 42) ∧
    baseName "/home/u/example/foo_test.go" = "foo_test.go" :=
  ⟨by decide, by decide,
    (C7_caller_attribution
      [Frame.mk "github.com/icza/mighty.getFuncLine" "myt.go" 199,
       Frame.mk "github.com/icza/mighty.Myt.expEqDeq.func1" "myt.go" 91]
      [Frame.mk "testing.tRunner" "testing.go" 1439]
      (Frame.mk "example.TestFoo" "/home/u/example/foo_test.go" 42)
      (by decide) (by decide) (by decide) (by decide) (by simp)).1,
    by decide⟩

/-- Claim C10: `getFuncLine` looks at no more than the first 20
captured frames, and the last captured frame is never examined (the
loop tests the `more` flag before the body); so whenever every
examined frame — all captured frames but the final one — belongs to
the library, the sentinel is returned. -/
theorem C10_window_and_final_frame
    (stack : List Frame)
    (h : ∀ g ∈ (stack.take 20).dropLast,
      hasPrefixStr packageName g.function = true) :
    getFuncLine stack = ("<unknown_func>", "<unknown_file>", -1) ∧
    (∀ s : List Frame, getFuncLine s = getFuncLine (s.take 20)) := by
  constructor
  · have hloop : frameLoop (stack.take 20) = none :=
      frameLoop_none_of_all_lib _ h
    simp [getFuncLine, hloop]
  · intro s
    simp [getFuncLine, List.take_take]

/-- Witness for `C10_window_and_final_frame`: the only non-library
frame is the final captured one, so the sentinel is returned even
though a qualifying frame was captured. -/
theorem C10_window_and_final_frame_witness :
    (∀ g ∈ ([Frame.mk "github.com/icza/mighty.getFuncLine" "myt.go" 199,
             Frame.mk "example.TestBar" "bar_test.go" 7].take 20).dropLast,
      hasPrefixStr packageName g.function = true) ∧
    getFuncLine
      [Frame.mk "github.com/icza/mighty.getFuncLine" "myt.go" 199,
       Frame.mk "example.TestBar" "bar_test.go" 7] =
      ("<unknown_func>", "<unknown_file>", -1) :=
  ⟨by decide,
    (C10_window_and_final_frame
      [Frame.mk "github.com/icza/mighty.getFuncLine" "myt.go" 199,
       Frame.mk "example.TestBar" "bar_test.go" 7] (by decide)).1⟩

end Mighty
